import Mathlib

/-!
Verification of the CRM CSV → Neo4j ingest pipeline (`ingest.py`).

The development shallowly embeds the pipeline: Python strings are Lean
`String`s restricted to ASCII content (the repository's CSV data and
configuration are ASCII), Python `dict` records are association lists,
the Neo4j driver and the filesystem are oracles supplied as explicit
environment parameters, and Python exceptions are `Except` values.
-/

deriving instance DecidableEq for Except

namespace Ingest

/-! ## Python string primitives

Models of the Python `str` methods the script uses, on ASCII content.
-/

/-- Model of Python `str.lower()` (ASCII case folding). -/
def pyLower (s : String) : String := ⟨s.data.map Char.toLower⟩

/-- Whitespace set stripped by Python `str.strip()` (the ASCII fragment). -/
def pyIsSpace (c : Char) : Bool :=
  c = ' ' ∨ c = '\t' ∨ c = '\n' ∨ c = '\r' ∨ c = '\x0b' ∨ c = '\x0c'

/-- Model of Python `str.strip()`: drop leading and trailing whitespace. -/
def pyStrip (s : String) : String :=
  ⟨((s.data.dropWhile pyIsSpace).reverse.dropWhile pyIsSpace).reverse⟩

/-- Model of Python `str.replace(old, new)` for a one-character `old` and
one-character `new` (the script only replaces `' '` by `'_'`). -/
def pyReplaceChar (s : String) (old new : Char) : String :=
  ⟨s.data.map (fun c => if c = old then new else c)⟩

/-- Model of Python `str.replace(old, "")` for a one-character `old`
(the script only deletes `'.'`). -/
def pyDeleteChar (s : String) (old : Char) : String :=
  ⟨s.data.filter (fun c => c ≠ old)⟩

/-- Model of Python `str.isdigit()` on ASCII text: non-empty and all
characters decimal digits. -/
def pyIsDigit (s : String) : Bool :=
  s.data ≠ [] ∧ s.data.all Char.isDigit

/-- Numeric value of a digit list (most significant first). -/
def digitsToNat (l : List Char) : Nat :=
  l.foldl (fun acc c => 10 * acc + c.toNat - '0'.toNat) 0

/-- Model of Python `int(s)` on a string satisfying `isdigit()`. -/
def pyIntOfDigits (s : String) : Nat := digitsToNat s.data

/-- Contiguous-sublist test on character lists (Python `needle in s`). -/
def containsList (needle : List Char) : List Char → Bool
  | [] => needle.isEmpty
  | c :: rest => needle.isPrefixOf (c :: rest) || containsList needle rest

/-- Case-insensitive substring test: Python `needle in haystack.lower()`
for a lowercase `needle`. -/
def containsSub (haystack needle : String) : Bool :=
  containsList needle.data (pyLower haystack).data

/-! ## Python `float` / `int` conversion

`convert_field_value` runs `int(value) if value.isdigit() else int(float(value))`
inside `except (ValueError, TypeError)`.  We model the result of `float(value)`
as a literal: a finite decimal (held exactly, as sign, integer part and
fractional digits), an infinity, or a NaN.  The model covers the plain decimal
grammar plus `inf`/`infinity`/`nan` (exponents, underscores and non-ASCII
digits are outside the data this pipeline sees and are not modelled). -/

/-- Result of a successful Python `float(...)` call on this grammar. -/
inductive FloatLit
  | finite (neg : Bool) (intPart : Nat) (fracDigits : List Char)
  | inf (neg : Bool)
  | nan
deriving DecidableEq

/-- Optional leading sign of a numeric literal; `true` means negative. -/
def parseSign : List Char → Bool × List Char
  | '+' :: rest => (false, rest)
  | '-' :: rest => (true, rest)
  | l => (false, l)

/-- Split a character list into its leading digit run and the remainder. -/
def splitDigits (l : List Char) : List Char × List Char :=
  (l.takeWhile Char.isDigit, l.dropWhile Char.isDigit)

/-- Parse the body of a finite decimal literal: `d+`, `d+.d*` or `.d+`.
Returns the integer part's value and the fractional digit list. -/
def parseFiniteBody (l : List Char) : Option (Nat × List Char) :=
  let (ip, rest) := splitDigits l
  match rest with
  | [] => if ip = [] then none else some (digitsToNat ip, [])
  | '.' :: rest2 =>
    let (fp, rest3) := splitDigits rest2
    if rest3 = [] ∧ (ip ≠ [] ∨ fp ≠ []) then some (digitsToNat ip, fp) else none
  | _ => none

/-- Model of Python `float(s)`: strip whitespace, case-fold, accept a signed
finite decimal, `inf`/`infinity`, or `nan`; `none` models a `ValueError`. -/
def pyFloat (s : String) : Option FloatLit :=
  let t := (pyStrip s).data.map Char.toLower
  let (neg, body) := parseSign t
  if body = ['i', 'n', 'f'] ∨ body = ['i', 'n', 'f', 'i', 'n', 'i', 't', 'y'] then
    some (.inf neg)
  else if body = ['n', 'a', 'n'] then some .nan
  else match parseFiniteBody body with
    | some (ip, fp) => some (.finite neg ip fp)
    | none => none

/-- Exceptions `int(float(...))` can raise past the literal parse. -/
inductive PyErr
  | overflowError
  | valueError
deriving DecidableEq

/-- Model of Python `int(f)` on a float: truncation toward zero for finite
values, `OverflowError` for infinities, `ValueError` for NaN. -/
def pyTruncInt : FloatLit → Except PyErr Int
  | .finite neg ip _ => .ok (if neg then -(ip : Int) else (ip : Int))
  | .inf _ => .error .overflowError
  | .nan => .error .valueError

/-! ## Date parsing (`datetime.strptime` / `strftime`) -/

/-- Split a character list at every occurrence of `sep`
(Python `re`-style field separation used by the strptime patterns). -/
def splitCharList (sep : Char) : List Char → List (List Char)
  | [] => [[]]
  | c :: rest =>
    let r := splitCharList sep rest
    if c = sep then [] :: r
    else match r with
      | h :: t => (c :: h) :: t
      | [] => [[c]]

/-- Parse a digit field of between `minLen` and `maxLen` characters whose
value lies in `lo..hi` (the shape of CPython's strptime field regexes). -/
def parseDigits (l : List Char) (minLen maxLen lo hi : Nat) : Option Nat :=
  if l.all Char.isDigit ∧ minLen ≤ l.length ∧ l.length ≤ maxLen ∧
      lo ≤ digitsToNat l ∧ digitsToNat l ≤ hi then
    some (digitsToNat l)
  else none

/-- Gregorian leap-year rule used by `datetime`. -/
def isLeap (y : Nat) : Bool := (y % 4 = 0 ∧ y % 100 ≠ 0) ∨ y % 400 = 0

/-- Days in a month, as validated by the `datetime` constructor. -/
def daysInMonth (y m : Nat) : Nat :=
  if m = 2 then (if isLeap y then 29 else 28)
  else if m = 4 ∨ m = 6 ∨ m = 9 ∨ m = 11 then 30
  else 31

/-- The three date formats tried by `convert_field_value`, in source order:
`%Y-%m-%d`, `%m/%d/%Y`, `%d/%m/%Y`. -/
inductive DateFormat
  | ymd
  | mdy
  | dmy
deriving DecidableEq

/-- Model of `datetime.strptime(s, fmt).date()` for the three formats:
field shapes follow CPython's strptime regexes (`%Y` exactly four digits,
`%m`/`%d` one or two digits in range) and the `datetime` constructor
validates the day against the month length. -/
def strptimeDate (fmt : DateFormat) (s : String) : Option (Nat × Nat × Nat) :=
  let sep : Char := match fmt with
    | .ymd => '-'
    | _ => '/'
  match splitCharList sep s.data with
  | [a, b, c] =>
    let ymd? : Option (Nat × Nat × Nat) := match fmt with
      | .ymd => (parseDigits a 4 4 1 9999).bind fun y =>
          (parseDigits b 1 2 1 12).bind fun m =>
          (parseDigits c 1 2 1 31).map fun d => (y, m, d)
      | .mdy => (parseDigits a 1 2 1 12).bind fun m =>
          (parseDigits b 1 2 1 31).bind fun d =>
          (parseDigits c 4 4 1 9999).map fun y => (y, m, d)
      | .dmy => (parseDigits a 1 2 1 31).bind fun d =>
          (parseDigits b 1 2 1 12).bind fun m =>
          (parseDigits c 4 4 1 9999).map fun y => (y, m, d)
    ymd?.bind fun ymd =>
      if ymd.2.2 ≤ daysInMonth ymd.1 ymd.2.1 then some ymd else none
  | _ => none

/-- Decimal rendering of `n` left-padded with zeros to width `w`. -/
def padNat (w n : Nat) : String :=
  let d := Nat.toDigits 10 n
  ⟨List.replicate (w - d.length) '0' ++ d⟩

/-- Model of `datetime.strftime('%Y-%m-%d')`. -/
def strftimeDate (y m d : Nat) : String :=
  padNat 4 y ++ "-" ++ padNat 2 m ++ "-" ++ padNat 2 d

/-- The strptime loop of `convert_field_value`: try the three formats in
order, normalizing the first success to `YYYY-MM-DD`. -/
def tryDateFormats (v : String) : Option String :=
  match strptimeDate .ymd v with
  | some ymd => some (strftimeDate ymd.1 ymd.2.1 ymd.2.2)
  | none => match strptimeDate .mdy v with
    | some ymd => some (strftimeDate ymd.1 ymd.2.1 ymd.2.2)
    | none => match strptimeDate .dmy v with
      | some ymd => some (strftimeDate ymd.1 ymd.2.1 ymd.2.2)
      | none => none

/-! ## `convert_field_value` -/

/-- A typed field value produced by the converter (`None`, `int` or `str`). -/
inductive Value
  | null
  | int (n : Int)
  | str (s : String)
deriving DecidableEq

/-- Keywords routing a field to the numeric branch. -/
def numericKeywords : List String := ["revenue", "amount", "number", "probability"]

/-- Keywords routing a field to the date branch. -/
def dateKeywords : List String := ["date", "created", "closed"]

/-- `convert_field_value(field_name, value)` from `ingest.py`.  The numeric
branch catches only `ValueError`/`TypeError`, so the `OverflowError` raised
by `int(float(v))` on an infinite `v` escapes; every other failure is
absorbed (`ValueError` from `float`/`int(nan)` becomes `None`, a date that
matches no format is returned verbatim). -/
def convert_field_value (field_name : String) (value : String) : Except PyErr Value :=
  if value = "" then .ok .null
  else if numericKeywords.any (fun kw => containsSub field_name kw) then
    if pyIsDigit value then .ok (.int (pyIntOfDigits value))
    else match pyFloat value with
      | none => .ok .null
      | some f => match pyTruncInt f with
        | .ok n => .ok (.int n)
        | .error .valueError => .ok .null
        | .error e => .error e
  else if dateKeywords.any (fun kw => containsSub field_name kw) then
    if pyStrip value = "" then .ok .null
    else match tryDateFormats value with
      | some d => .ok (.str d)
      | none => .ok (.str value)
  else .ok (.str value)

/-! ## Derived case-owner entities -/

/-- The two columns of a `cases.csv` row this pipeline reads
(`row.get` of a missing column yields the empty string). -/
structure CaseRow where
  Case_ID : String
  Case_Owner : String
deriving DecidableEq

/-- `generate_case_owner_id(name)`: `None` for falsy or whitespace-only
names, otherwise `name.lower().replace(' ', '_').replace('.', '')`. -/
def generate_case_owner_id (name : String) : Option String :=
  if name = "" ∨ pyStrip name = "" then none
  else some (pyDeleteChar (pyReplaceChar (pyLower name) ' ' '_') '.')

/-- One record built by `load_case_owners` for a distinct owner name. -/
structure OwnerRec where
  ownerId : Option String
  name : String
deriving DecidableEq

/-- The distinct trimmed non-empty `Case_Owner` values of `cases.csv`, in
first-appearance order.  `load_case_owners` accumulates them in a Python
`set`, whose iteration order is unspecified; all downstream claims depend
only on membership and cardinality, which the deduplicated list shares. -/
def collectOwners (rows : List CaseRow) : List String :=
  ((rows.map fun row => pyStrip row.Case_Owner).filter fun o => o ≠ "").dedup

/-- The record list built by `load_case_owners` before its single write:
one record per distinct trimmed owner name. -/
def load_case_owners_records (rows : List CaseRow) : List OwnerRec :=
  (collectOwners rows).map fun owner_name =>
    { ownerId := generate_case_owner_id owner_name, name := owner_name }

/-- One record built by `load_assigned_to_relationships`. -/
structure AssignedRec where
  sourceId : String
  targetId : Option String
deriving DecidableEq

/-- Per-row contribution of `load_assigned_to_relationships`: a record when
both the trimmed `Case_ID` and the trimmed `Case_Owner` are non-empty. -/
def assignedToOfRow (row : CaseRow) : Option AssignedRec :=
  let case_id := pyStrip row.Case_ID
  let case_owner := pyStrip row.Case_Owner
  if case_id ≠ "" ∧ case_owner ≠ "" then
    some { sourceId := case_id, targetId := generate_case_owner_id case_owner }
  else none

/-- `load_assigned_to_relationships()`: scan `cases.csv`, keeping a record
for every row with a non-empty trimmed case id and owner. -/
def load_assigned_to_relationships (rows : List CaseRow) : List AssignedRec :=
  rows.filterMap assignedToOfRow

/-! ## Pipeline state: records, rows, environment, configuration -/

/-- One produced record: a Python dict from destination field to value. -/
abbrev Rec := List (String × Value)

/-- One CSV row: association from column name to raw text. -/
abbrev Row := List (String × String)

/-- `row.get(col, '')` on a `csv.DictReader` row. -/
def rowGet (row : Row) (col : String) : String :=
  match row.find? fun p => p.1 = col with
  | some p => p.2
  | none => ""

/-- Exceptions the pipeline can raise. -/
inductive Err
  | fileNotFound (path : String)
  | keyError (key : String)
  | query (msg : String)
  | pyErr (e : PyErr)
  | connection (msg : String)
deriving DecidableEq

/-- How `Neo4jIngest()` construction went, as observed by `main`. -/
inductive InitResult
  /-- `__init__` raised before `GraphDatabase.driver` returned a driver
  (missing credentials, missing configuration, or driver construction
  itself failed): no driver object exists. -/
  | beforeDriver (e : Err)
  /-- `GraphDatabase.driver` returned a driver but `verify_connectivity`
  raised, so `__init__` raised `ConnectionError` and `main`'s local
  `ingest` was never bound. -/
  | driverNotVerified (e : Err)
  /-- construction succeeded: driver created and verified. -/
  | ready
deriving DecidableEq

/-- The external world: the Neo4j driver and the `data/` directory, as
oracles.  `runQuery q chunk = none` models a successful
`session.run(q, {'records': chunk}).consume()`; `some e` models a raised
exception with text `e`.  `readFile` is the content of `data/<path>`
(`none` models a missing file).  `readCount` is the outcome of a
read-only verification query. -/
structure Env where
  init : InitResult
  runQuery : String → List Rec → Option String
  readFile : String → Option (List Row)
  readCount : String → Except String Nat

/-- Configuration of one node type under `loading_queries.nodes`. -/
structure NodeCfg where
  source_file : String
  field_mappings : List (String × String)
  query : String

/-- Configuration of one relationship type under
`loading_queries.relationships`. -/
structure RelCfg where
  source_data : String
  field_mappings : List (String × String)
  query : String

/-- The parsed `ingest_config.yaml`.  `indexes` is `none` when the key is
absent or explicitly null; the code normalizes both to `[]` via `or []`. -/
structure Config where
  constraints : List String
  indexes : Option (List String)
  nodes : List (String × NodeCfg)
  relationships : List (String × RelCfg)

/-! ## Constraint and index creation -/

/-- The tolerated-error test: `"already exists" in str(e).lower()`. -/
def isAlreadyExists (e : String) : Bool := containsSub e "already exists"

/-- One iteration of the constraint/index loops: run the statement,
swallow an "already exists" failure, re-raise anything else. -/
def runInitStatement (env : Env) (stmt : String) : Except Err Unit :=
  match env.runQuery stmt [] with
  | none => .ok ()
  | some e => if isAlreadyExists e then .ok () else .error (.query e)

/-- The shared loop body of `create_constraints` / `create_indexes`. -/
def runInitStatements (env : Env) : List String → Except Err Unit
  | [] => .ok ()
  | stmt :: rest =>
    match runInitStatement env stmt with
    | .ok _ => runInitStatements env rest
    | .error e => .error e

/-- `create_constraints()`. -/
def create_constraints (env : Env) (cfg : Config) : Except Err Unit :=
  runInitStatements env cfg.constraints

/-- `create_indexes()`: `indexes = config.get(...) or []`, early return on
an empty list, otherwise the same tolerant loop as constraints. -/
def create_indexes (env : Env) (cfg : Config) : Except Err Unit :=
  let indexes := cfg.indexes.getD []
  if indexes = [] then .ok () else runInitStatements env indexes

/-! ## CSV loading -/

/-- Inner loop of `load_csv_data`: build one record from one row.  An empty
or missing column yields `None` without calling the converter; an
uncaught converter exception propagates. -/
def recordOfRow (field_mappings : List (String × String)) (row : Row) :
    Except Err Rec :=
  field_mappings.mapM fun tf_sf =>
    let value := rowGet row tf_sf.2
    if value = "" then .ok (tf_sf.1, Value.null)
    else match convert_field_value tf_sf.1 value with
      | .ok v => .ok (tf_sf.1, v)
      | .error e => .error (.pyErr e)

/-- `load_csv_data(file_path, field_mappings)`. -/
def load_csv_data (env : Env) (file_path : String)
    (field_mappings : List (String × String)) : Except Err (List Rec) :=
  match env.readFile file_path with
  | none => .error (.fileNotFound file_path)
  | some rows => rows.mapM (recordOfRow field_mappings)

/-! ## Batched writes -/

/-- The `batch_size` local of both loading loops. -/
def batch_size : Nat := 1000

/-- Fuel-driven worker for `chunksOf`; with `l.length ≤ fuel` and `0 < n`
it peels `l.take n` slices until the list is exhausted. -/
def chunksOfFuel (n : Nat) : Nat → List α → List (List α)
  | _, [] => []
  | 0, _ :: _ => []
  | fuel + 1, a :: rest => ((a :: rest).take n) :: chunksOfFuel n fuel ((a :: rest).drop n)

/-- `records[i:i+n]` slices produced by `range(0, len(records), n)`. -/
def chunksOf (n : Nat) (l : List α) : List (List α) :=
  if n = 0 then [] else chunksOfFuel n l.length l

/-- The node-loading batch loop: any chunk failure propagates, aborting
the loop; on success, the list of written chunks is returned. -/
def runChunksFatal (env : Env) (query : String) :
    List (List Rec) → Except Err (List (List Rec))
  | [] => .ok []
  | c :: cs =>
    match env.runQuery query c with
    | none => (runChunksFatal env query cs).map fun ws => c :: ws
    | some e => .error (.query e)

/-- The relationship-loading batch loop: a chunk failure is logged and the
chunk skipped (`continue`); the written chunks are returned. -/
def runChunksTolerant (env : Env) (query : String) :
    List (List Rec) → List (List Rec)
  | [] => []
  | c :: cs =>
    match env.runQuery query c with
    | none => c :: runChunksTolerant env query cs
    | some _ => runChunksTolerant env query cs

/-- The batched write as performed inside `load_nodes`. -/
def write_batches_fatal (env : Env) (query : String) (records : List Rec) :
    Except Err (List (List Rec)) :=
  runChunksFatal env query (chunksOf batch_size records)

/-- The batched write as performed inside `load_relationships`. -/
def write_batches_tolerant (env : Env) (query : String) (records : List Rec) :
    List (List Rec) :=
  runChunksTolerant env query (chunksOf batch_size records)

/-! ## Node loading -/

/-- Encoding of a derived owner record as the dict passed to the driver. -/
def encodeOwner (r : OwnerRec) : Rec :=
  [("ownerId", match r.ownerId with
    | some s => Value.str s
    | none => Value.null),
   ("name", Value.str r.name)]

/-- `d[key]` on a configuration mapping: `KeyError` when absent. -/
def lookupCfg {β : Type} (l : List (String × β)) (key : String) : Except Err β :=
  match l.find? fun p => p.1 = key with
  | some p => .ok p.2
  | none => .error (.keyError key)

/-- Read `data/cases.csv` and keep the two columns the script uses. -/
def readCases (env : Env) : Except Err (List CaseRow) :=
  match env.readFile "cases.csv" with
  | none => .error (.fileNotFound "cases.csv")
  | some rows => .ok (rows.map fun row => ⟨rowGet row "Case_ID", rowGet row "Case_Owner"⟩)

/-- `load_case_owners()`: derive the owner records from `cases.csv` and
issue one (unbatched) write with the configured `CaseOwner` query. -/
def load_case_owners (env : Env) (cfg : Config) : Except Err Unit := do
  let rows ← readCases env
  let records := (load_case_owners_records rows).map encodeOwner
  let nodeCfg ← lookupCfg cfg.nodes "CaseOwner"
  match env.runQuery nodeCfg.query records with
  | none => .ok ()
  | some e => .error (.query e)

/-- The generic node loop of `load_nodes`: every configured type except
`CaseOwner`, loaded from CSV and written with the fatal batch loop. -/
def load_node_entries (env : Env) : List (String × NodeCfg) → Except Err Unit
  | [] => .ok ()
  | (node_type, c) :: rest =>
    if node_type = "CaseOwner" then load_node_entries env rest
    else do
      let records ← load_csv_data env c.source_file c.field_mappings
      let _ ← write_batches_fatal env c.query records
      load_node_entries env rest

/-- `load_nodes()`: derived case owners first, then the generic loop. -/
def load_nodes (env : Env) (cfg : Config) : Except Err Unit := do
  load_case_owners env cfg
  load_node_entries env cfg.nodes

/-! ## Relationship loading -/

/-- Encoding of an `ASSIGNED_TO` record as the dict passed to the driver. -/
def encodeAssigned (r : AssignedRec) : Rec :=
  [("sourceId", Value.str r.sourceId),
   ("targetId", match r.targetId with
    | some s => Value.str s
    | none => Value.null)]

/-- A write the relationship loader performed: which type, which chunk. -/
structure WriteEvent where
  relType : String
  chunk : List Rec
deriving DecidableEq

/-- Record resolution for one relationship type: the specialized
`cases.csv` scan for `ASSIGNED_TO`, the generic CSV loader otherwise. -/
def resolveRelRecords (env : Env) (relationship_type : String) (c : RelCfg) :
    Except Err (List Rec) :=
  if relationship_type = "ASSIGNED_TO" then do
    let rows ← readCases env
    .ok ((load_assigned_to_relationships rows).map encodeAssigned)
  else load_csv_data env c.source_data c.field_mappings

/-- The loop of `load_relationships`: skip the reserved
`CONVERTED_TO_OPPORTUNITY` type, resolve records, write with the
tolerant batch loop, and collect the writes actually performed. -/
def load_rel_entries (env : Env) : List (String × RelCfg) → Except Err (List WriteEvent)
  | [] => .ok []
  | (relationship_type, c) :: rest =>
    if relationship_type = "CONVERTED_TO_OPPORTUNITY" then load_rel_entries env rest
    else do
      let records ← resolveRelRecords env relationship_type c
      let written := write_batches_tolerant env c.query records
      let restEvents ← load_rel_entries env rest
      .ok (written.map (fun ch => ⟨relationship_type, ch⟩) ++ restEvents)

/-- `load_relationships()`. -/
def load_relationships (env : Env) (cfg : Config) : Except Err (List WriteEvent) :=
  load_rel_entries env cfg.relationships

/-! ## Orchestration, verification, `main` -/

/-- `run_ingest()`: the four strictly ordered phases; any phase failure
is re-raised. -/
def run_ingest (env : Env) (cfg : Config) : Except Err (List WriteEvent) := do
  create_constraints env cfg
  create_indexes env cfg
  load_nodes env cfg
  load_relationships env cfg

/-- The fixed `(description, query)` list of `verify_data`. -/
def verification_queries : List (String × String) :=
  [("Total Accounts", "MATCH (n:Account) RETURN count(n) as count"),
   ("Total Contacts", "MATCH (n:Contact) RETURN count(n) as count"),
   ("Total Cases", "MATCH (n:Case) RETURN count(n) as count"),
   ("Total Opportunities", "MATCH (n:Opportunity) RETURN count(n) as count"),
   ("Total Leads", "MATCH (n:Lead) RETURN count(n) as count"),
   ("Total Case Owners", "MATCH (n:CaseOwner) RETURN count(n) as count"),
   ("Account-Contact relationships", "MATCH (:Contact)-[:BELONGS_TO_ACCOUNT]->(:Account) RETURN count(*) as count"),
   ("Account-Case relationships", "MATCH (:Account)-[:HAS_CASE]->(:Case) RETURN count(*) as count"),
   ("Case-Contact relationships", "MATCH (:Case)-[:REPORTED_BY]->(:Contact) RETURN count(*) as count"),
   ("Account-Opportunity relationships", "MATCH (:Account)-[:HAS_OPPORTUNITY]->(:Opportunity) RETURN count(*) as count"),
   ("Case-Owner relationships", "MATCH (:Case)-[:ASSIGNED_TO]->(:CaseOwner) RETURN count(*) as count")]

/-- What `verify_data` logs for one query. -/
inductive VerifyLog
  | counted (description : String) (count : Nat)
  | failed (description : String) (msg : String)
deriving DecidableEq

/-- Per-query body of `verify_data`: the result is logged, or the error is
caught and logged — in either case the loop moves on. -/
def verifyLogEntry (env : Env) (dq : String × String) : VerifyLog :=
  match env.readCount dq.2 with
  | .ok n => .counted dq.1 n
  | .error e => .failed dq.1 e

/-- `verify_data()`: run every verification query, logging each outcome
independently; never raises. -/
def verify_data (env : Env) : List VerifyLog :=
  verification_queries.map (verifyLogEntry env)

/-- Observable outcome of one `main()` run. `verifyLog = none` means
`verify_data` was never entered. -/
structure MainObs where
  exitCode : Nat
  driverCreated : Bool
  driverClosed : Bool
  verifyLog : Option (List VerifyLog)
deriving DecidableEq

/-- `main()`: construct `Neo4jIngest` (connect), run the ingest, then
verify; on any exception log and return 1; the `finally` block closes the
driver only when the local `ingest` was bound, i.e. only when construction
completed. -/
def main (env : Env) (cfg : Config) : MainObs :=
  match env.init with
  | .beforeDriver _ => ⟨1, false, false, none⟩
  | .driverNotVerified _ => ⟨1, true, false, none⟩
  | .ready =>
    match run_ingest env cfg with
    | .error _ => ⟨1, true, true, none⟩
    | .ok _ => ⟨0, true, true, some (verify_data env)⟩

/-! ## Helper lemmas: stripping and slugs -/

/-- Dropping a satisfying prefix does not change whether all elements
satisfy the predicate. -/
theorem all_dropWhile_eq (p : α → Bool) (l : List α) :
    (l.dropWhile p).all p = l.all p := by
  conv_rhs => rw [← List.takeWhile_append_dropWhile (p := p) (l := l)]
  rw [List.all_append]
  have h : (l.takeWhile p).all p = true := by
    rw [List.all_eq_true]
    exact fun x hx => List.mem_takeWhile_imp hx
  rw [h, Bool.true_and]

/-- Stripping preserves whether the whole string is whitespace. -/
theorem pyStrip_data_all (s : String) :
    (pyStrip s).data.all pyIsSpace = s.data.all pyIsSpace := by
  unfold pyStrip
  rw [List.all_reverse, all_dropWhile_eq, List.all_reverse, all_dropWhile_eq]

/-- A string strips to empty exactly when it is all whitespace. -/
theorem pyStrip_eq_empty_iff (s : String) :
    pyStrip s = "" ↔ s.data.all pyIsSpace = true := by
  unfold pyStrip
  constructor
  · intro h
    have hd : ((s.data.dropWhile pyIsSpace).reverse.dropWhile pyIsSpace).reverse = [] := by
      have := congrArg String.data h
      simpa using this
    rw [List.reverse_eq_nil_iff, List.dropWhile_eq_nil_iff] at hd
    have hall : (s.data.dropWhile pyIsSpace).reverse.all pyIsSpace = true := by
      rw [List.all_eq_true]; exact hd
    rw [List.all_reverse, all_dropWhile_eq] at hall
    exact hall
  · intro h
    have hd : s.data.dropWhile pyIsSpace = [] := by
      rw [List.dropWhile_eq_nil_iff]
      intro x hx
      exact (List.all_eq_true.mp h) x hx
    simp [hd]

/-- Stripping a stripped string yields empty only when one strip already
did. -/
theorem pyStrip_pyStrip_empty_iff (s : String) :
    pyStrip (pyStrip s) = "" ↔ pyStrip s = "" := by
  rw [pyStrip_eq_empty_iff, pyStrip_data_all, ← pyStrip_eq_empty_iff]

/-- Lowercasing preserves length, hence emptiness. -/
theorem pyLower_eq_empty_iff (s : String) : pyLower s = "" ↔ s = "" := by
  constructor
  · intro h
    have h2 : s.data.map Char.toLower = [] := congrArg String.data h
    exact String.ext (List.map_eq_nil_iff.mp h2)
  · intro h
    rw [h]
    rfl

/-- The derived identity is a function of the lowercased trimmed name:
rows whose trimmed `Case_Owner` values agree after lowercasing derive
the same owner id. -/
theorem generate_id_eq_of_lower_eq (a b : String)
    (h : pyLower (pyStrip a) = pyLower (pyStrip b)) :
    generate_case_owner_id (pyStrip a) = generate_case_owner_id (pyStrip b) := by
  have hemp : pyStrip a = "" ↔ pyStrip b = "" := by
    rw [← pyLower_eq_empty_iff (pyStrip a), ← pyLower_eq_empty_iff (pyStrip b), h]
  unfold generate_case_owner_id
  by_cases ha : pyStrip a = ""
  · have hb : pyStrip b = "" := hemp.mp ha
    rw [if_pos (Or.inl ha), if_pos (Or.inl hb)]
  · have hb : ¬ pyStrip b = "" := fun hb => ha (hemp.mpr hb)
    have ha2 : ¬ pyStrip (pyStrip a) = "" := fun h2 => ha ((pyStrip_pyStrip_empty_iff a).mp h2)
    have hb2 : ¬ pyStrip (pyStrip b) = "" := fun h2 => hb ((pyStrip_pyStrip_empty_iff b).mp h2)
    rw [if_neg (by tauto), if_neg (by tauto)]
    rw [h]

/-- Membership in the distinct-owner list. -/
theorem mem_collectOwners (rows : List CaseRow) (o : String) :
    o ∈ collectOwners rows ↔
      o ≠ "" ∧ ∃ row ∈ rows, pyStrip row.Case_Owner = o := by
  unfold collectOwners
  rw [List.mem_dedup, List.mem_filter]
  simp only [List.mem_map, decide_eq_true_eq]
  tauto

/-! ## Helper lemmas: chunking and batch loops -/

/-- Concatenating the chunks of the fueled worker restores the list. -/
theorem chunksOfFuel_join (n : Nat) (hn : 0 < n) :
    ∀ (fuel : Nat) (l : List α), l.length ≤ fuel →
      (chunksOfFuel n fuel l).flatten = l := by
  intro fuel
  induction fuel with
  | zero =>
    intro l hl
    cases l with
    | nil => rfl
    | cons a rest => simp at hl
  | succ fuel ih =>
    intro l hl
    cases l with
    | nil => rfl
    | cons a rest =>
      simp only [chunksOfFuel, List.flatten_cons]
      have hl2 : rest.length + 1 ≤ fuel + 1 := by simpa using hl
      rw [ih ((a :: rest).drop n) (by simp only [List.length_drop, List.length_cons]; omega)]
      exact List.take_append_drop n (a :: rest)

/-- Concatenating the chunks restores the record list. -/
theorem chunksOf_join (n : Nat) (hn : 0 < n) (l : List α) :
    (chunksOf n l).flatten = l := by
  unfold chunksOf
  rw [if_neg (Nat.pos_iff_ne_zero.mp hn)]
  exact chunksOfFuel_join n hn l.length l le_rfl

/-- Every produced chunk is non-empty. -/
theorem ne_nil_of_mem_chunksOf (n : Nat) (hn : 0 < n) (l : List α)
    (c : List α) (hc : c ∈ chunksOf n l) : c ≠ [] := by
  unfold chunksOf at hc
  rw [if_neg (Nat.pos_iff_ne_zero.mp hn)] at hc
  generalize hfuel : l.length = fuel at hc
  clear hfuel
  induction fuel generalizing l with
  | zero =>
    cases l with
    | nil => simp [chunksOfFuel] at hc
    | cons a rest => simp [chunksOfFuel] at hc
  | succ fuel ih =>
    cases l with
    | nil => simp [chunksOfFuel] at hc
    | cons a rest =>
      simp only [chunksOfFuel, List.mem_cons] at hc
      rcases hc with hc | hc
      · subst hc
        simp [List.take_eq_nil_iff]
        omega
      · exact ih _ hc

/-- The tolerant loop keeps exactly the chunks whose write succeeded. -/
theorem runChunksTolerant_eq_filter (env : Env) (q : String) (cs : List (List Rec)) :
    runChunksTolerant env q cs = cs.filter fun c => (env.runQuery q c).isNone := by
  induction cs with
  | nil => rfl
  | cons c cs ih =>
    simp only [runChunksTolerant, List.filter_cons]
    cases h : env.runQuery q c with
    | none => simp [h, ih]
    | some e => simp [h, ih]

/-- The concatenation of a filtered list of lists is a sublist of the
concatenation of the whole. -/
theorem join_filter_sublist (p : List β → Bool) (cs : List (List β)) :
    ((cs.filter p).flatten).Sublist cs.flatten := by
  induction cs with
  | nil => simp
  | cons c cs ih =>
    by_cases h : p c
    · simpa [List.filter_cons, h] using ih.append_left c
    · simp only [List.filter_cons, h, Bool.false_eq_true, if_false, List.flatten_cons]
      exact ih.trans (List.sublist_append_right c cs.flatten)

/-- Filtering out a non-empty element strictly shrinks the concatenation. -/
theorem length_join_filter_lt (p : List β → Bool) (cs : List (List β))
    (c : List β) (hc : c ∈ cs) (hpc : p c = false) (hne : c ≠ []) :
    ((cs.filter p).flatten).length < cs.flatten.length := by
  induction cs with
  | nil => cases hc
  | cons d cs ih =>
    rcases List.mem_cons.mp hc with rfl | hc
    · have h1 : ((cs.filter p).flatten).length ≤ cs.flatten.length :=
        (join_filter_sublist p cs).length_le
      have h2 : 0 < c.length := List.length_pos.mpr hne
      simp only [List.filter_cons, hpc, Bool.false_eq_true, if_false, List.flatten_cons,
        List.length_append]
      omega
    · by_cases h : p d
      · simp only [List.filter_cons, h, if_true, List.flatten_cons, List.length_append]
        have := ih hc
        omega
      · simp only [List.filter_cons, h, Bool.false_eq_true, if_false, List.flatten_cons,
          List.length_append]
        have := ih hc
        omega

/-- A failing chunk anywhere in the list makes the fatal loop abort. -/
theorem runChunksFatal_error (env : Env) (q : String) (cs : List (List Rec))
    (c : List Rec) (e : String) (hc : c ∈ cs) (he : env.runQuery q c = some e) :
    ∃ e2, runChunksFatal env q cs = .error (.query e2) := by
  induction cs with
  | nil => cases hc
  | cons d cs ih =>
    simp only [runChunksFatal]
    cases hd : env.runQuery q d with
    | some e2 => exact ⟨e2, rfl⟩
    | none =>
      rcases List.mem_cons.mp hc with rfl | hc2
      · rw [hd] at he; cases he
      · rcases ih hc2 with ⟨e2, h2⟩
        rw [h2]
        exact ⟨e2, rfl⟩

/-- In a duplicate-free list, filtering for one of its members keeps
exactly one element. -/
theorem filter_eq_length_one_of_nodup {l : List String} {x : String}
    (hn : l.Nodup) (hx : x ∈ l) : (l.filter fun y => y = x).length = 1 := by
  induction l with
  | nil => cases hx
  | cons a l ih =>
    by_cases hax : a = x
    · subst hax
      have ha : a ∉ l := (List.nodup_cons.mp hn).1
      have hnil : (l.filter fun y => y = a) = [] := by
        rw [List.filter_eq_nil_iff]
        intro b hb
        simp only [decide_eq_true_eq]
        exact fun hba => ha (hba ▸ hb)
      simp [List.filter_cons, hnil]
    · have hx2 : x ∈ l := by
        rcases List.mem_cons.mp hx with h | h
        · exact absurd h.symm hax
        · exact h
      simp only [List.filter_cons, decide_eq_false hax, Bool.false_eq_true, if_false]
      exact ih (List.nodup_cons.mp hn).2 hx2

/-! ## Claim theorems -/

/-- C1 counterexample: for the input rows with `Case_Owner` values
`"John Smith"` and `"john smith "` — differing only in letter case and
surrounding whitespace — the derived identity is the identical slug
`"john_smith"` for both, yet `load_case_owners` produces two owner
records carrying that slug, not exactly one: its deduplicating set is
keyed by the trimmed name, not by the slug. -/
theorem c1_two_records_one_slug :
    pyLower (pyStrip "John Smith") = pyLower (pyStrip "john smith ")
    ∧ generate_case_owner_id (pyStrip "John Smith") = some "john_smith"
    ∧ generate_case_owner_id (pyStrip "john smith ") = some "john_smith"
    ∧ ((load_case_owners_records [⟨"1", "John Smith"⟩, ⟨"2", "john smith "⟩]).filter
        fun o => o.ownerId = some "john_smith").length = 2 := by
  decide

/-- C1 (amended): two rows whose `Case_Owner` values agree after trimming
and lowercasing derive the identical owner id, and the case-owner loading
step produces exactly one owner record per distinct trimmed name — so
rows differing only in surrounding whitespace collapse to one record,
while rows differing in letter case each contribute a record, all
carrying the same slug. -/
theorem c1_owner_slug_and_record_per_name (a b : String) (rows : List CaseRow)
    (h : pyLower (pyStrip a) = pyLower (pyStrip b)) :
    generate_case_owner_id (pyStrip a) = generate_case_owner_id (pyStrip b)
    ∧ ∀ name ∈ collectOwners rows,
        ((load_case_owners_records rows).filter fun o => o.name = name).length = 1 := by
  refine ⟨generate_id_eq_of_lower_eq a b h, ?_⟩
  intro name hname
  unfold load_case_owners_records
  rw [List.filter_map]
  rw [List.length_map]
  have hnodup : (collectOwners rows).Nodup := List.nodup_dedup _
  have : ((collectOwners rows).filter
      ((fun o : OwnerRec => decide (o.name = name)) ∘ fun owner_name =>
        { ownerId := generate_case_owner_id owner_name, name := owner_name })) =
      (collectOwners rows).filter fun y => y = name := by
    rfl
  rw [this]
  exact filter_eq_length_one_of_nodup hnodup hname

/-- C1 witness: the amended theorem applied to the concrete pair of owner
names from the specification's example. -/
theorem c1_owner_slug_witness :
    generate_case_owner_id (pyStrip "John Smith") =
      generate_case_owner_id (pyStrip "john smith ") :=
  (c1_owner_slug_and_record_per_name "John Smith" "john smith " [] (by decide)).1

/-- C10: every `ASSIGNED_TO` record's `targetId` is the `ownerId` of some
record produced by the case-owner builder from the same rows; a row
contributes a record exactly when both its trimmed `Case_ID` and trimmed
`Case_Owner` are non-empty, and its `targetId` is the slug of the
trimmed owner name. -/
theorem c10_assigned_targets_resolve (rows : List CaseRow) :
    (∀ rec ∈ load_assigned_to_relationships rows,
      rec.targetId ≠ none ∧
      ∃ own ∈ load_case_owners_records rows, own.ownerId = rec.targetId)
    ∧ ∀ row : CaseRow,
        (assignedToOfRow row ≠ none ↔
          (pyStrip row.Case_ID ≠ "" ∧ pyStrip row.Case_Owner ≠ ""))
        ∧ ∀ rec, assignedToOfRow row = some rec →
            rec.targetId = generate_case_owner_id (pyStrip row.Case_Owner) := by
  have hrow_eq : ∀ row : CaseRow, assignedToOfRow row =
      if pyStrip row.Case_ID ≠ "" ∧ pyStrip row.Case_Owner ≠ "" then
        some (AssignedRec.mk (pyStrip row.Case_ID)
          (generate_case_owner_id (pyStrip row.Case_Owner)))
      else none := fun _ => rfl
  constructor
  · intro rec hrec
    rcases List.mem_filterMap.mp hrec with ⟨row, hrow, hsome⟩
    rw [hrow_eq row] at hsome
    by_cases hcond : pyStrip row.Case_ID ≠ "" ∧ pyStrip row.Case_Owner ≠ ""
    · rw [if_pos hcond] at hsome
      have hrec2 : AssignedRec.mk (pyStrip row.Case_ID)
          (generate_case_owner_id (pyStrip row.Case_Owner)) = rec :=
        Option.some.inj hsome
      subst hrec2
      have howner : pyStrip row.Case_Owner ∈ collectOwners rows :=
        (mem_collectOwners rows _).mpr ⟨hcond.2, row, hrow, rfl⟩
      have hstrip2 : pyStrip (pyStrip row.Case_Owner) ≠ "" :=
        fun h2 => hcond.2 ((pyStrip_pyStrip_empty_iff row.Case_Owner).mp h2)
      constructor
      · show generate_case_owner_id (pyStrip row.Case_Owner) ≠ none
        unfold generate_case_owner_id
        rw [if_neg (by tauto)]
        simp
      · refine ⟨OwnerRec.mk (generate_case_owner_id (pyStrip row.Case_Owner))
            (pyStrip row.Case_Owner), ?_, rfl⟩
        unfold load_case_owners_records
        exact List.mem_map.mpr ⟨pyStrip row.Case_Owner, howner, rfl⟩
    · rw [if_neg hcond] at hsome
      cases hsome
  · intro row
    rw [hrow_eq row]
    by_cases hcond : pyStrip row.Case_ID ≠ "" ∧ pyStrip row.Case_Owner ≠ ""
    · rw [if_pos hcond]
      refine ⟨⟨fun _ => hcond, fun _ => by simp⟩, ?_⟩
      intro rec hrec
      rw [← Option.some.inj hrec]
    · rw [if_neg hcond]
      exact ⟨⟨fun hne => absurd rfl hne, fun hc => absurd hc hcond⟩,
        fun rec hrec => by cases hrec⟩

/-- C10 witness: for a concrete single-row file, the `ASSIGNED_TO` record's
target is covered by an owner record the builder emits. -/
theorem c10_assigned_targets_witness :
    ∃ own ∈ load_case_owners_records [⟨"1", "John Smith"⟩],
      own.ownerId = some "john_smith" :=
  ((c10_assigned_targets_resolve [⟨"1", "John Smith"⟩]).1
    ⟨"1", some "john_smith"⟩ (by decide)).2

/-- Reduction of the converter on a numeric-keyword field. -/
theorem convert_numeric (field_name value : String)
    (hnum : numericKeywords.any (fun kw => containsSub field_name kw) = true)
    (hne : value ≠ "") :
    convert_field_value field_name value =
      (if pyIsDigit value then .ok (.int (pyIntOfDigits value))
       else match pyFloat value with
         | none => .ok .null
         | some f => match pyTruncInt f with
           | .ok n => .ok (.int n)
           | .error .valueError => .ok .null
           | .error e => .error e) := by
  unfold convert_field_value
  rw [if_neg hne, if_pos hnum]

/-- Reduction of the converter on a date-keyword (non-numeric) field. -/
theorem convert_date (field_name value : String)
    (hnum : numericKeywords.any (fun kw => containsSub field_name kw) = false)
    (hdate : dateKeywords.any (fun kw => containsSub field_name kw) = true)
    (hne : value ≠ "") :
    convert_field_value field_name value =
      (if pyStrip value = "" then .ok .null
       else match tryDateFormats value with
         | some d => .ok (.str d)
         | none => .ok (.str value)) := by
  unfold convert_field_value
  rw [if_neg hne, if_neg (by rw [hnum]; exact Bool.false_ne_true), if_pos hdate]

/-- C5: on any field whose name contains `"amount"` (case-insensitively),
`"100"` converts to the integer 100, `"100.7"` converts to the integer
100 by truncation toward zero, and a text that neither satisfies
`isdigit()` nor parses as a decimal number converts to `None` without
raising. -/
theorem c5_amount_truncation (field_name value : String)
    (hf : containsSub field_name "amount" = true)
    (hvd : pyIsDigit value = false) (hvf : pyFloat value = none) :
    convert_field_value field_name "100" = .ok (.int 100)
    ∧ convert_field_value field_name "100.7" = .ok (.int 100)
    ∧ convert_field_value field_name value = .ok .null := by
  have hnum : numericKeywords.any (fun kw => containsSub field_name kw) = true :=
    List.any_eq_true.mpr ⟨"amount", by decide, hf⟩
  refine ⟨?_, ?_, ?_⟩
  · rw [convert_numeric field_name "100" hnum (by decide)]
    decide
  · rw [convert_numeric field_name "100.7" hnum (by decide)]
    decide
  · by_cases hne : value = ""
    · rw [hne]
      rfl
    · rw [convert_numeric field_name value hnum hne, if_neg (by rw [hvd]; exact Bool.false_ne_true), hvf]

/-- C5 witness: the theorem at the field `"amount"` and the unparseable
text `"abc"`. -/
theorem c5_amount_truncation_witness :
    convert_field_value "amount" "100" = .ok (.int 100)
    ∧ convert_field_value "amount" "100.7" = .ok (.int 100)
    ∧ convert_field_value "amount" "abc" = .ok .null :=
  c5_amount_truncation "amount" "abc" (by decide) (by decide) (by decide)

/-- C6 counterexample: `" "` is a non-empty text, the field `"created"`
matches a date keyword and no numeric keyword, and the text matches none
of the three date patterns — yet conversion returns `None`, not the
original text: the code's `value.strip()` guard routes whitespace-only
values to `None`. -/
theorem c6_whitespace_yields_null :
    dateKeywords.any (fun kw => containsSub "created" kw) = true
    ∧ numericKeywords.any (fun kw => containsSub "created" kw) = false
    ∧ (" " : String) ≠ ""
    ∧ tryDateFormats " " = none
    ∧ convert_field_value "created" " " = .ok .null := by
  decide

/-- C6 (amended): on a date-keyword, non-numeric field, a non-empty text
whose stripped form is also non-empty and which matches none of the three
date patterns is returned unchanged (not null); a non-empty but
whitespace-only text instead converts to `None`. -/
theorem c6_date_fallthrough (field_name value : String)
    (hdate : dateKeywords.any (fun kw => containsSub field_name kw) = true)
    (hnum : numericKeywords.any (fun kw => containsSub field_name kw) = false)
    (hne : value ≠ "") (hnb : pyStrip value ≠ "")
    (hmatch : tryDateFormats value = none) :
    convert_field_value field_name value = .ok (.str value) := by
  rw [convert_date field_name value hnum hdate hne, if_neg hnb, hmatch]

/-- C6 witness: the amended theorem at the field `"created_date"` and the
pattern-free text `"hello"`. -/
theorem c6_date_fallthrough_witness :
    convert_field_value "created_date" "hello" = .ok (.str "hello") :=
  c6_date_fallthrough "created_date" "hello" (by decide) (by decide) (by decide)
    (by decide) (by decide)

/-- C7: the converter is not total — on an `"amount"` field the texts
`"inf"` and `"Infinity"` are accepted by `float()` and then make
`int(...)` raise `OverflowError`, which the numeric branch's
`except (ValueError, TypeError)` does not catch, so the exception
escapes the converter. -/
theorem c7_overflow_escapes :
    convert_field_value "amount" "inf" = .error .overflowError
    ∧ convert_field_value "amount" "Infinity" = .error .overflowError := by
  decide

/-- C8: a failed constraint/index statement is treated as success exactly
when its error text contains `"already exists"` case-insensitively: a
tolerated error leaves the loop successful, any other error is re-raised
and aborts the whole run, and an absent or empty index list makes index
creation a no-op. -/
theorem c8_already_exists_tolerance
    (env : Env) (cfg cfgIdx : Config) (stmt1 stmt2 e1 e2 : String) (rest : List String)
    (h1 : env.runQuery stmt1 [] = some e1) (ht : isAlreadyExists e1 = true)
    (h2 : env.runQuery stmt2 [] = some e2) (hf : isAlreadyExists e2 = false)
    (hc : cfg.constraints = stmt2 :: rest)
    (hidx : cfgIdx.indexes = none ∨ cfgIdx.indexes = some []) :
    runInitStatement env stmt1 = .ok ()
    ∧ runInitStatement env stmt2 = .error (.query e2)
    ∧ run_ingest env cfg = .error (.query e2)
    ∧ create_indexes env cfgIdx = .ok () := by
  have hs1 : runInitStatement env stmt1 = .ok () := by
    unfold runInitStatement
    rw [h1]
    show (if isAlreadyExists e1 = true then Except.ok ()
      else Except.error (Err.query e1)) = Except.ok ()
    rw [if_pos ht]
  have hs2 : runInitStatement env stmt2 = .error (.query e2) := by
    unfold runInitStatement
    rw [h2]
    show (if isAlreadyExists e2 = true then Except.ok ()
      else Except.error (Err.query e2)) = Except.error (Err.query e2)
    rw [if_neg (by rw [hf]; exact Bool.false_ne_true)]
  refine ⟨hs1, hs2, ?_, ?_⟩
  · have hcc : create_constraints env cfg = .error (.query e2) := by
      unfold create_constraints
      rw [hc]
      unfold runInitStatements
      rw [hs2]
    unfold run_ingest
    rw [hcc]
    rfl
  · unfold create_indexes
    rcases hidx with hi | hi <;> rw [hi] <;> rfl

/-- Environment for the C8 witness: one statement fails with an
"already exists" message, another with an unrelated message. -/
def c8Env : Env :=
  { init := .ready
    runQuery := fun stmt _ =>
      if stmt = "c_dup" then some "An equivalent constraint Already Exists"
      else if stmt = "c_bad" then some "syntax error"
      else none
    readFile := fun _ => some []
    readCount := fun _ => .ok 0 }

/-- Configuration for the C8 witness: the failing statement first. -/
def c8Cfg : Config :=
  { constraints := ["c_bad"]
    indexes := some []
    nodes := []
    relationships := [] }

/-- C8 witness: the theorem at the concrete environment. -/
theorem c8_already_exists_witness :
    runInitStatement c8Env "c_dup" = .ok ()
    ∧ runInitStatement c8Env "c_bad" = .error (.query "syntax error")
    ∧ run_ingest c8Env c8Cfg = .error (.query "syntax error")
    ∧ create_indexes c8Env c8Cfg = .ok () :=
  c8_already_exists_tolerance c8Env c8Cfg c8Cfg "c_dup" "c_bad"
    "An equivalent constraint Already Exists" "syntax error" []
    (by decide) (by decide) (by decide) (by decide) (by decide) (Or.inr (by decide))

/-- Environment for the C2 counterexample: construction succeeds but the
first constraint write fails with a non-tolerated error. -/
def c2Env : Env :=
  { init := .ready
    runQuery := fun _ _ => some "boom"
    readFile := fun _ => some []
    readCount := fun _ => .ok 0 }

/-- Configuration for the C2 counterexample. -/
def c2Cfg : Config :=
  { constraints := ["CREATE CONSTRAINT c"]
    indexes := none
    nodes := []
    relationships := [] }

/-- C2 counterexample: a run whose constraint phase fails never enters
`verify_data` — `main` only calls the verifier after `run_ingest`
returns, so verification is not attempted for every run. -/
theorem c2_verification_skipped_on_failure :
    run_ingest c2Env c2Cfg = .error (.query "boom")
    ∧ (main c2Env c2Cfg).verifyLog = none := by
  decide

/-- C2 (amended): when construction and all loading phases succeed,
verification runs; every one of the fixed verification queries is
executed and its outcome logged (a failing query is logged as a failure,
does not prevent the other queries, and no exception propagates: the
process still exits 0).  Verification is skipped when an earlier phase
fails. -/
theorem c2_verification_independent (env : Env) (cfg : Config) (w : List WriteEvent)
    (dq : String × String) (msg : String)
    (hinit : env.init = .ready)
    (hok : run_ingest env cfg = .ok w)
    (hdq : dq ∈ verification_queries)
    (hmsg : env.readCount dq.2 = .error msg) :
    (main env cfg).verifyLog = some (verify_data env)
    ∧ (main env cfg).exitCode = 0
    ∧ (verify_data env).length = verification_queries.length
    ∧ verifyLogEntry env dq ∈ verify_data env
    ∧ verifyLogEntry env dq = .failed dq.1 msg := by
  have hmain : main env cfg = ⟨0, true, true, some (verify_data env)⟩ := by
    unfold main
    rw [hinit, hok]
  refine ⟨by rw [hmain], by rw [hmain], ?_, ?_, ?_⟩
  · unfold verify_data
    exact List.length_map _ _
  · exact List.mem_map.mpr ⟨dq, hdq, rfl⟩
  · unfold verifyLogEntry
    rw [hmsg]

/-- Environment for the C2 witness: loading succeeds while every
verification query fails. -/
def c2WitEnv : Env :=
  { init := .ready
    runQuery := fun _ _ => none
    readFile := fun _ => some []
    readCount := fun _ => .error "server down" }

/-- Configuration for the C2 witness. -/
def c2WitCfg : Config :=
  { constraints := []
    indexes := none
    nodes := [("CaseOwner", ⟨"cases.csv", [], "MERGE (o:CaseOwner)"⟩)]
    relationships := [] }

/-- C2 witness: the amended theorem at the concrete environment and the
first verification query. -/
theorem c2_verification_witness :
    (main c2WitEnv c2WitCfg).verifyLog = some (verify_data c2WitEnv)
    ∧ (main c2WitEnv c2WitCfg).exitCode = 0
    ∧ (verify_data c2WitEnv).length = verification_queries.length
    ∧ verifyLogEntry c2WitEnv
        ("Total Accounts", "MATCH (n:Account) RETURN count(n) as count") ∈ verify_data c2WitEnv
    ∧ verifyLogEntry c2WitEnv
        ("Total Accounts", "MATCH (n:Account) RETURN count(n) as count") =
        .failed "Total Accounts" "server down" :=
  c2_verification_independent c2WitEnv c2WitCfg []
    ("Total Accounts", "MATCH (n:Account) RETURN count(n) as count") "server down"
    (by decide) (by decide) (by decide) (by decide)

/-- Environment for the C3 analysis: the driver object is created but
`verify_connectivity` raises. -/
def c3Env : Env :=
  { init := .driverNotVerified (.connection "Failed to connect to Neo4j")
    runQuery := fun _ _ => none
    readFile := fun _ => some []
    readCount := fun _ => .ok 0 }

/-- Configuration for the C3 analysis. -/
def c3Cfg : Config :=
  { constraints := []
    indexes := none
    nodes := []
    relationships := [] }

/-- C3: when `GraphDatabase.driver` succeeds but `verify_connectivity`
raises, `Neo4jIngest.__init__` raises before `main`'s local `ingest` is
bound, so the `finally` block's `if ingest and ingest.driver` guard skips
`driver.close()`: a driver object was created on this exit path but is
never released, contradicting the guaranteed-release claim. -/
theorem c3_driver_leaked_on_connect_failure :
    (main c3Env c3Cfg).driverCreated = true
    ∧ (main c3Env c3Cfg).driverClosed = false
    ∧ (main c3Env c3Cfg).exitCode = 1 := by
  decide

/-- C4: during relationship loading, when one chunk's write fails and a
later chunk's succeeds, the failing chunk is skipped (its records are
absent from the written chunks, with no retry), the later chunk is still
applied, the loading step still returns successfully, and the records
written form a strict sublist of the full record list; node loading over
the same records and the same failing query instead aborts with an
error. -/
theorem c4_chunk_tolerance_vs_fatal
    (env : Env) (relationship_type : String) (c : RelCfg)
    (node_type : String) (nc : NodeCfg)
    (records : List Rec) (i j : Nat) (ci cj : List Rec) (e : String)
    (hrt : relationship_type ≠ "CONVERTED_TO_OPPORTUNITY")
    (hres : resolveRelRecords env relationship_type c = .ok records)
    (hnt : node_type ≠ "CaseOwner")
    (hncsv : load_csv_data env nc.source_file nc.field_mappings = .ok records)
    (hnq : nc.query = c.query)
    (_hij : i < j)
    (hci : (chunksOf batch_size records)[i]? = some ci)
    (hcj : (chunksOf batch_size records)[j]? = some cj)
    (hfail : env.runQuery c.query ci = some e)
    (hok : env.runQuery c.query cj = none) :
    cj ∈ write_batches_tolerant env c.query records
    ∧ ci ∉ write_batches_tolerant env c.query records
    ∧ ((write_batches_tolerant env c.query records).flatten).Sublist records
    ∧ ((write_batches_tolerant env c.query records).flatten).length < records.length
    ∧ load_rel_entries env [(relationship_type, c)] =
        .ok ((write_batches_tolerant env c.query records).map
          fun ch => ⟨relationship_type, ch⟩)
    ∧ ∃ e2, load_node_entries env [(node_type, nc)] = .error (.query e2) := by
  have h1000 : (0 : Nat) < batch_size := by decide
  have hmemci : ci ∈ chunksOf batch_size records := by
    rcases List.getElem?_eq_some.mp hci with ⟨hlt, hgot⟩
    exact hgot ▸ List.getElem_mem hlt
  have hmemcj : cj ∈ chunksOf batch_size records := by
    rcases List.getElem?_eq_some.mp hcj with ⟨hlt, hgot⟩
    exact hgot ▸ List.getElem_mem hlt
  have hfilter : write_batches_tolerant env c.query records =
      (chunksOf batch_size records).filter fun ch => (env.runQuery c.query ch).isNone :=
    runChunksTolerant_eq_filter env c.query _
  have hjoin : (chunksOf batch_size records).flatten = records :=
    chunksOf_join batch_size h1000 records
  refine ⟨?_, ?_, ?_, ?_, ?_, ?_⟩
  · rw [hfilter]
    refine List.mem_filter.mpr ⟨hmemcj, ?_⟩
    show (env.runQuery c.query cj).isNone = true
    rw [hok]
    rfl
  · rw [hfilter]
    intro hmem
    have hmm : (env.runQuery c.query ci).isNone = true := (List.mem_filter.mp hmem).2
    rw [hfail] at hmm
    cases hmm
  · rw [hfilter]
    have h1 := join_filter_sublist
      (fun ch => (env.runQuery c.query ch).isNone) (chunksOf batch_size records)
    rw [hjoin] at h1
    exact h1
  · rw [hfilter]
    have hpc : (fun ch => (env.runQuery c.query ch).isNone) ci = false := by
      show (env.runQuery c.query ci).isNone = false
      rw [hfail]
      rfl
    have hlt := length_join_filter_lt
      (fun ch => (env.runQuery c.query ch).isNone) (chunksOf batch_size records) ci
      hmemci hpc (ne_nil_of_mem_chunksOf batch_size h1000 records ci hmemci)
    rw [hjoin] at hlt
    exact hlt
  · show (if relationship_type = "CONVERTED_TO_OPPORTUNITY" then
        load_rel_entries env [] else _) = _
    rw [if_neg hrt, hres]
    show Except.ok ((write_batches_tolerant env c.query records).map
        (fun ch => (⟨relationship_type, ch⟩ : WriteEvent)) ++ ([] : List WriteEvent)) = _
    rw [List.append_nil]
  · obtain ⟨e2, he2⟩ := runChunksFatal_error env c.query (chunksOf batch_size records)
      ci e hmemci hfail
    refine ⟨e2, ?_⟩
    show (if node_type = "CaseOwner" then load_node_entries env [] else _) = _
    rw [if_neg hnt, hncsv]
    show (do
      let _ ← write_batches_fatal env nc.query records
      load_node_entries env ([] : List (String × NodeCfg))) = _
    rw [hnq]
    unfold write_batches_fatal
    rw [he2]
    rfl

/-- Records used by the C4 witness. -/
def c4Rec : Rec := [("f", Value.null)]

/-- Environment for the C4 witness: the CSV file holds 1001 rows and any
full-size chunk's write fails while smaller chunks succeed. -/
def c4Env : Env :=
  { init := .ready
    runQuery := fun _ chunk => if chunk.length = 1000 then some "chunk failed" else none
    readFile := fun p => if p = "rel.csv" then some (List.replicate 1001 []) else none
    readCount := fun _ => .ok 0 }

/-- Relationship configuration for the C4 witness. -/
def c4RelCfg : RelCfg := ⟨"rel.csv", [("f", "col")], "q"⟩

/-- Node configuration for the C4 witness. -/
def c4NodeCfg : NodeCfg := ⟨"rel.csv", [("f", "col")], "q"⟩

/-- The 1001 identical records the C4 witness loads. -/
def c4Records : List Rec := List.replicate 1001 c4Rec

/-- `mapM` of a constantly-succeeding function over a constant list. -/
theorem mapM_replicate_ok {ε α β : Type} (f : α → Except ε β) (x : α) (y : β)
    (hf : f x = .ok y) (k : Nat) :
    (List.replicate k x).mapM f = .ok (List.replicate k y) := by
  induction k with
  | zero => rfl
  | succ k ih =>
    rw [List.replicate_succ, List.replicate_succ, List.mapM_cons, hf, ih]
    rfl

set_option maxRecDepth 10000 in
/-- C4 witness: with 1001 records and `batch_size = 1000`, the first
(full) chunk's write fails and the second (single-record) chunk's write
succeeds; the theorem yields the skipped chunk, the applied chunk, the
strict shortfall, and the fatal abort of node loading. -/
theorem c4_chunk_tolerance_witness :
    [c4Rec] ∈ write_batches_tolerant c4Env "q" c4Records
    ∧ List.replicate 1000 c4Rec ∉ write_batches_tolerant c4Env "q" c4Records
    ∧ ((write_batches_tolerant c4Env "q" c4Records).flatten).length < c4Records.length
    ∧ ∃ e2, load_node_entries c4Env [("N", c4NodeCfg)] = .error (.query e2) := by
  have hres : resolveRelRecords c4Env "HAS_CASE" c4RelCfg = .ok c4Records := by
    show load_csv_data c4Env "rel.csv" [("f", "col")] = .ok c4Records
    show (List.replicate 1001 ([] : Row)).mapM (recordOfRow [("f", "col")]) = .ok c4Records
    exact mapM_replicate_ok (recordOfRow [("f", "col")]) [] c4Rec (by decide) 1001
  have hncsv : load_csv_data c4Env c4NodeCfg.source_file c4NodeCfg.field_mappings =
      .ok c4Records := by
    show (List.replicate 1001 ([] : Row)).mapM (recordOfRow [("f", "col")]) = .ok c4Records
    exact mapM_replicate_ok (recordOfRow [("f", "col")]) [] c4Rec (by decide) 1001
  have hchunks : chunksOf batch_size c4Records =
      [List.replicate 1000 c4Rec, [c4Rec]] := by decide
  have h := c4_chunk_tolerance_vs_fatal c4Env "HAS_CASE" c4RelCfg "N" c4NodeCfg
    c4Records 0 1 (List.replicate 1000 c4Rec) [c4Rec] "chunk failed"
    (by decide) hres (by decide) hncsv rfl (by decide)
    (by rw [hchunks]; rfl) (by rw [hchunks]; rfl)
    (by show (if (List.replicate 1000 c4Rec).length = 1000 then some "chunk failed"
          else none) = some "chunk failed"
        rw [List.length_replicate]
        exact if_pos rfl)
    (by show (if ([c4Rec] : List Rec).length = 1000 then some "chunk failed"
          else none) = none
        exact if_neg (by decide))
  exact ⟨h.1, h.2.1, h.2.2.2.1, h.2.2.2.2.2⟩

/-- Specification of the relationship-loading loop used by C9: when every
non-reserved type's records resolve, the loop succeeds, performs no write
for the reserved type, and applies every successful chunk of every
non-reserved type. -/
theorem load_rel_entries_spec (env : Env) (rels : List (String × RelCfg))
    (hres : ∀ p ∈ rels, p.1 ≠ "CONVERTED_TO_OPPORTUNITY" →
      ∃ rs, resolveRelRecords env p.1 p.2 = .ok rs) :
    ∃ events, load_rel_entries env rels = .ok events
      ∧ (∀ ev ∈ events, ev.relType ≠ "CONVERTED_TO_OPPORTUNITY")
      ∧ ∀ p ∈ rels, p.1 ≠ "CONVERTED_TO_OPPORTUNITY" →
          ∀ rs, resolveRelRecords env p.1 p.2 = .ok rs →
            ∀ ch ∈ write_batches_tolerant env p.2.query rs,
              (⟨p.1, ch⟩ : WriteEvent) ∈ events := by
  induction rels with
  | nil =>
    exact ⟨[], rfl, by simp, by simp⟩
  | cons head rest ih =>
    obtain ⟨t, c⟩ := head
    have hres' : ∀ p ∈ rest, p.1 ≠ "CONVERTED_TO_OPPORTUNITY" →
        ∃ rs, resolveRelRecords env p.1 p.2 = .ok rs :=
      fun p hp => hres p (List.mem_cons_of_mem _ hp)
    obtain ⟨evs, hevs, hno, hcov⟩ := ih hres'
    by_cases ht : t = "CONVERTED_TO_OPPORTUNITY"
    · refine ⟨evs, ?_, hno, ?_⟩
      · show (if t = "CONVERTED_TO_OPPORTUNITY" then load_rel_entries env rest else _) = _
        rw [if_pos ht]
        exact hevs
      · intro p hp hne rs hrs ch hch
        rcases List.mem_cons.mp hp with rfl | hp2
        · exact absurd ht hne
        · exact hcov p hp2 hne rs hrs ch hch
    · obtain ⟨rs₀, hrs₀⟩ := hres (t, c) (List.mem_cons_self _ _) ht
      refine ⟨(write_batches_tolerant env c.query rs₀).map (fun ch => ⟨t, ch⟩) ++ evs,
        ?_, ?_, ?_⟩
      · show (if t = "CONVERTED_TO_OPPORTUNITY" then load_rel_entries env rest else _) = _
        rw [if_neg ht, hrs₀]
        show (do
          let restEvents ← load_rel_entries env rest
          Except.ok ((write_batches_tolerant env c.query rs₀).map
            (fun ch => (⟨t, ch⟩ : WriteEvent)) ++ restEvents)) = _
        rw [hevs]
        rfl
      · intro ev hev
        rcases List.mem_append.mp hev with h | h
        · rcases List.mem_map.mp h with ⟨ch, _, rfl⟩
          exact ht
        · exact hno ev h
      · intro p hp hne rs hrs ch hch
        rcases List.mem_cons.mp hp with rfl | hp2
        · have hrseq : rs = rs₀ := by
            rw [hrs] at hrs₀
            exact (Except.ok.injEq _ _).mp hrs₀
          subst hrseq
          exact List.mem_append.mpr (Or.inl (List.mem_map.mpr ⟨ch, hch, rfl⟩))
        · exact List.mem_append.mpr (Or.inr (hcov p hp2 hne rs hrs ch hch))

/-- C9: when the configured relationships include the reserved
`CONVERTED_TO_OPPORTUNITY` type, the relationship-loading phase (given
that every other type's records resolve) completes without raising,
performs no write tagged with the reserved type, and still applies every
successful chunk of every other configured type. -/
theorem c9_reserved_type_skipped (env : Env) (cfg : Config)
    (hres : ∀ p ∈ cfg.relationships, p.1 ≠ "CONVERTED_TO_OPPORTUNITY" →
      ∃ rs, resolveRelRecords env p.1 p.2 = .ok rs) :
    ∃ events, load_relationships env cfg = .ok events
      ∧ (∀ ev ∈ events, ev.relType ≠ "CONVERTED_TO_OPPORTUNITY")
      ∧ ∀ p ∈ cfg.relationships, p.1 ≠ "CONVERTED_TO_OPPORTUNITY" →
          ∀ rs, resolveRelRecords env p.1 p.2 = .ok rs →
            ∀ ch ∈ write_batches_tolerant env p.2.query rs,
              (⟨p.1, ch⟩ : WriteEvent) ∈ events :=
  load_rel_entries_spec env cfg.relationships hres

/-- Environment for the C9 witness. -/
def c9Env : Env :=
  { init := .ready
    runQuery := fun _ _ => none
    readFile := fun _ => some []
    readCount := fun _ => .ok 0 }

/-- Configuration for the C9 witness: the reserved type plus one
ordinary relationship type. -/
def c9Cfg : Config :=
  { constraints := []
    indexes := none
    nodes := []
    relationships := [("CONVERTED_TO_OPPORTUNITY", ⟨"leads.csv", [], "q1"⟩),
      ("HAS_CASE", ⟨"cases2.csv", [], "q2"⟩)] }

/-- C9 witness: the theorem at the concrete two-relationship
configuration containing the reserved type. -/
theorem c9_reserved_type_witness :
    ∃ events, load_relationships c9Env c9Cfg = .ok events
      ∧ (∀ ev ∈ events, ev.relType ≠ "CONVERTED_TO_OPPORTUNITY")
      ∧ ∀ p ∈ c9Cfg.relationships, p.1 ≠ "CONVERTED_TO_OPPORTUNITY" →
          ∀ rs, resolveRelRecords c9Env p.1 p.2 = .ok rs →
            ∀ ch ∈ write_batches_tolerant c9Env p.2.query rs,
              (⟨p.1, ch⟩ : WriteEvent) ∈ events := by
  refine c9_reserved_type_skipped c9Env c9Cfg ?_
  intro p hp hne
  rcases List.mem_cons.mp hp with rfl | hp2
  · exact absurd rfl hne
  · rcases List.mem_cons.mp hp2 with rfl | hp3
    · exact ⟨[], by decide⟩
    · cases hp3

end Ingest
